import Mathlib

/-! Shallow embedding of the stepper-axis configuration core
(src/firmware/src/MightyBoard/Motherboard/StepperAxis.cc) and proofs of the
specified properties.

Modelling conventions:
* C `float` values are modelled as exact rationals (the spec describes the
  arithmetic "in real arithmetic"); the fixed-point round trip FTOFP/FPTOF on
  `max_feedrate` is modelled as exact.
* A C cast from a floating value to an integer type truncates toward zero
  (`truncQ` below); behaviour outside the target range is undefined in C, so
  the truncation model covers all defined cases.
* The `int64 -> int32` narrowing cast at the end of `stepperAxisMMToSteps` and
  the `uint32 -> int32` reinterpretation of the persisted Z home position wrap
  modulo 2^32 (`toInt32` below), as they do on the AVR target.
* EEPROM reads are modelled by a record holding the effective values (stored
  value, or the compiled-in default when unset).
* Hardware port I/O (pin directions, pull-ups, enable lines) has no effect on
  the modelled state and is omitted; the build is the default one
  (no PSTOP_SUPPORT, no Z_HOME_MAX).
-/

namespace StepperAxisModel

/-- Number of stepper axes: X, Y, Z, A, B. -/
abbrev STEPPER_COUNT : Nat := 5

/-- Number of extruder axes (board configured; `EXTRUDERS` in the source). -/
abbrev EXTRUDERS : Nat := 2

/-- Axis indices as in the source. -/
def X_AXIS : Fin STEPPER_COUNT := 0
def Y_AXIS : Fin STEPPER_COUNT := 1
def Z_AXIS : Fin STEPPER_COUNT := 2
def A_AXIS : Fin STEPPER_COUNT := 3
def B_AXIS : Fin STEPPER_COUNT := 4

/-- Truncation toward zero of a rational: the semantics of a C cast from a
floating-point value to an integer type (defined whenever the value fits the
target type).  Truncation toward zero is the floor for nonnegative values and
the ceiling for negative ones. -/
def truncQ (q : ℚ) : ℤ := if 0 ≤ q then ⌊q⌋ else ⌈q⌉

/-- Reduce an unbounded integer to the value of the `int32_t` holding its low
32 bits (two's complement wrap-around). -/
def toInt32 (z : ℤ) : ℤ := (z + 2 ^ 31) % 2 ^ 32 - 2 ^ 31

/-- Per-axis DDA motion descriptor (the `dda` member of `struct StepperAxis`),
consumed by the external step generator. -/
@[ext]
structure DDA where
  eAxis : Bool
  counter : ℤ
  direction : ℤ
  stepperDir : Bool
  master : Bool
  master_steps : ℤ
  steps_completed : ℤ
  steps : ℤ
deriving DecidableEq, Repr

/-- Per-axis configuration record (`struct StepperAxis`). -/
@[ext]
structure StepperAxisRec where
  steps_per_mm : ℚ
  max_feedrate : ℚ
  min_interval : ℤ
  max_axis_steps_limit : ℤ
  min_axis_steps_limit : ℤ
  invert_axis : Bool
  invert_endstop : Bool
  hasHomed : Bool
  hasDefinePosition : Bool
  dda : DDA
deriving DecidableEq, Repr

/-- Effective persisted calibration values (EEPROM reads with their defaults
already resolved).  Byte-wide bitmasks are naturals below 256; 32-bit values
are naturals below 2^32. -/
structure Eeprom where
  axis_inversion : ℕ
  endstop_inversion : ℕ
  axis_steps_per_mm : Fin STEPPER_COUNT → ℕ
  axis_max_feedrates : Fin STEPPER_COUNT → ℕ
  axis_lengths : Fin STEPPER_COUNT → ℕ
  axis_home_positions_steps : Fin STEPPER_COUNT → ℕ
deriving DecidableEq

/-- The mutable state owned by this core: the per-axis configuration array and
the shared globals of StepperAxis.cc. -/
@[ext]
structure MachineState where
  stepperAxis : Fin STEPPER_COUNT → StepperAxisRec
  dda_position : Fin STEPPER_COUNT → ℤ
  axis_homing : Fin STEPPER_COUNT → Bool
  e_steps : Fin EXTRUDERS → ℤ
  axesEnabled : ℕ
  axesHardwareEnabled : ℕ
deriving DecidableEq

/-- The steps-per-mm value recovered from its persisted scaled-integer form
(stored value divided by 10^6). -/
def eepromStepsPerMM (ee : Eeprom) (i : Fin STEPPER_COUNT) : ℚ :=
  (ee.axis_steps_per_mm i : ℚ) / 1000000

/-- The max feedrate recovered from its persisted per-minute form (stored
value divided by 60). -/
def eepromMaxFeedrate (ee : Eeprom) (i : Fin STEPPER_COUNT) : ℚ :=
  (ee.axis_max_feedrates i : ℚ) / 60

/-- Embeds `length` of StepperAxis.cc line 107: the persisted axis length in mm
multiplied by steps-per-mm, truncated by the cast to `int32_t`. -/
def axisLengthSteps (ee : Eeprom) (i : Fin STEPPER_COUNT) : ℤ :=
  truncQ ((ee.axis_lengths i : ℚ) * eepromStepsPerMM ee i)

/-- The hard-reset portion of the per-axis loop of `stepperAxisInit`
(StepperAxis.cc lines 85-164): decode the inversion bitmasks, load the
calibration values, derive `min_interval` and the travel limits, and clear the
homed / defined-position flags.  The `dda` member is untouched here (it is
reset afterwards in both modes). -/
def hardResetAxis (ee : Eeprom) (i : Fin STEPPER_COUNT) (old : StepperAxisRec) :
    StepperAxisRec :=
  let endstops_present : Bool := ee.endstop_inversion.testBit 7
  let steps_per_mm := eepromStepsPerMM ee i
  let max_feedrate := eepromMaxFeedrate ee i
  let f : ℤ := truncQ (steps_per_mm * max_feedrate)
  let length : ℤ := axisLengthSteps ee i
  let homePos : ℤ := toInt32 (ee.axis_home_positions_steps i : ℤ)
  let limits : ℤ × ℤ :=  -- (max_axis_steps_limit, min_axis_steps_limit)
    if i = X_AXIS ∨ i = Y_AXIS then
      (Int.tdiv length 2, -(Int.tdiv length 2))
    else if i = Z_AXIS then
      (length - homePos, 0)
    else
      (length, -length)
  { old with
    invert_endstop := (!endstops_present) || ee.endstop_inversion.testBit i
    invert_axis := ee.axis_inversion.testBit i
    steps_per_mm := steps_per_mm
    max_feedrate := max_feedrate
    min_interval := if f ≠ 0 then Int.tdiv 1000000 f else 500
    max_axis_steps_limit := limits.1
    min_axis_steps_limit := limits.2
    hasHomed := false
    hasDefinePosition := false }

/-- DDA reset performed for every axis regardless of `hard_reset`
(StepperAxis.cc lines 167-176). -/
def resetDDA (i : Fin STEPPER_COUNT) : DDA :=
  { eAxis := decide (A_AXIS.val ≤ i.val)
    counter := 0
    direction := 1
    stepperDir := false
    master := false
    master_steps := 0
    steps_completed := 0
    steps := 0 }

/-- Embeds `stepperAxisInit(bool hard_reset)` (StepperAxis.cc lines 60-193) as a
state transformer.  Port I/O calls are omitted (no modelled effect). -/
def stepperAxisInit (hard_reset : Bool) (ee : Eeprom) (s : MachineState) :
    MachineState :=
  { stepperAxis := fun i =>
      let r := if hard_reset then hardResetAxis ee i (s.stepperAxis i)
               else s.stepperAxis i
      { r with dda := resetDDA i }
    dda_position := fun i => if hard_reset then 0 else s.dda_position i
    axis_homing := fun _ => false
    e_steps := fun _ => 0
    axesEnabled := if hard_reset then 0 else s.axesEnabled
    axesHardwareEnabled := if hard_reset then 0 else s.axesHardwareEnabled }

/-- Embeds `stepperAxisStepsPerMM` (StepperAxis.cc lines 196-199). -/
def stepperAxisStepsPerMM (s : MachineState) (axis : Fin STEPPER_COUNT) : ℚ :=
  (s.stepperAxis axis).steps_per_mm

/-- Embeds `stepperAxisStepsToMM` (StepperAxis.cc lines 202-204). -/
def stepperAxisStepsToMM (s : MachineState) (steps : ℤ)
    (axis : Fin STEPPER_COUNT) : ℚ :=
  (steps : ℚ) / (s.stepperAxis axis).steps_per_mm

/-- Embeds `stepperAxisMMToSteps` (StepperAxis.cc lines 208-218): scale by 1000 and
truncate to `int64_t`, multiply by the `int64_t`-truncated steps-per-mm,
divide (C truncating division) by 1000, and narrow to `int32_t`. -/
def stepperAxisMMToSteps (s : MachineState) (mm : ℚ)
    (axis : Fin STEPPER_COUNT) : ℤ :=
  let intmm : ℤ := truncQ (mm * 1000)
  let ret : ℤ := intmm * truncQ (s.stepperAxis axis).steps_per_mm
  toInt32 (Int.tdiv ret 1000)

/-- The mm-to-steps conversion as the spec words it (for comparison with the
implementation): scale `mm` by 1000 in real arithmetic, truncate to an
integer, multiply by the integer-truncated steps-per-mm, integer-divide
(truncating) by 1000. -/
def mmToStepsSpec (spm : ℚ) (mm : ℚ) : ℤ :=
  Int.tdiv (truncQ (mm * 1000) * truncQ spm) 1000

/-- A travel-limit derivation following the spec sentence for claim C4
word-for-word: the step length of an axis obtained by ROUNDING (to nearest)
the product of the persisted length and steps-per-mm, rather than truncating
it. -/
def axisLengthStepsRounded (ee : Eeprom) (i : Fin STEPPER_COUNT) : ℤ :=
  round ((ee.axis_lengths i : ℚ) * eepromStepsPerMM ee i)

/-- Sample EEPROM contents: every axis gets the given raw scaled
steps-per-mm and raw length (mm), feedrate 6000 steps/min (100/s), home 0,
no inversions. -/
def eeS (spmRaw lenRaw : ℕ) : Eeprom :=
  { axis_inversion := 0
    endstop_inversion := 0
    axis_steps_per_mm := fun _ => spmRaw
    axis_max_feedrates := fun _ => 6000
    axis_lengths := fun _ => lenRaw
    axis_home_positions_steps := fun _ => 0 }

/-- An all-zero DDA descriptor, for building concrete initial states. -/
def zeroDDA : DDA :=
  { eAxis := false, counter := 0, direction := 0, stepperDir := false,
    master := false, master_steps := 0, steps_completed := 0, steps := 0 }

/-- An all-zero machine state, for building concrete initial states. -/
def zeroState : MachineState :=
  { stepperAxis := fun _ =>
      { steps_per_mm := 0, max_feedrate := 0, min_interval := 0,
        max_axis_steps_limit := 0, min_axis_steps_limit := 0,
        invert_axis := false, invert_endstop := false,
        hasHomed := false, hasDefinePosition := false, dda := zeroDDA }
    dda_position := fun _ => 0
    axis_homing := fun _ => false
    e_steps := fun _ => 0
    axesEnabled := 0
    axesHardwareEnabled := 0 }

/-! Basic facts about the modelling primitives. -/

theorem truncQ_of_nonneg {q : ℚ} (h : 0 ≤ q) : truncQ q = ⌊q⌋ := if_pos h

theorem truncQ_of_neg {q : ℚ} (h : q < 0) : truncQ q = ⌈q⌉ :=
  if_neg (not_le.2 h)

theorem truncQ_nonneg {q : ℚ} (h : 0 ≤ q) : 0 ≤ truncQ q := by
  rw [truncQ_of_nonneg h]
  exact Int.floor_nonneg.2 h

theorem truncQ_intCast (n : ℤ) : truncQ (n : ℚ) = n := by
  rcases le_or_lt 0 (n : ℚ) with h | h
  · rw [truncQ_of_nonneg h, Int.floor_intCast]
  · rw [truncQ_of_neg h, Int.ceil_intCast]

theorem truncQ_natCast (n : ℕ) : truncQ (n : ℚ) = n := by
  have := truncQ_intCast (n : ℤ)
  simpa using this

/-- Truncation toward zero moves a rational by strictly less than 1. -/
theorem abs_sub_truncQ_lt_one (q : ℚ) : |q - (truncQ q : ℚ)| < 1 := by
  rcases le_or_lt 0 q with h | h
  · rw [truncQ_of_nonneg h, abs_lt]
    constructor
    · linarith [Int.floor_le q]
    · linarith [Int.lt_floor_add_one q]
  · rw [truncQ_of_neg h, abs_lt]
    constructor
    · linarith [Int.ceil_lt_add_one q]
    · linarith [Int.le_ceil q]

/-- The `int32_t` wrap is the identity on values in range. -/
theorem toInt32_eq_self {z : ℤ} (hlo : -(2 ^ 31) ≤ z) (hhi : z < 2 ^ 31) :
    toInt32 z = z := by
  have h1 : (0 : ℤ) ≤ z + 2 ^ 31 := by linarith
  have h2 : z + 2 ^ 31 < 2 ^ 32 := by linarith [hhi]
  rw [toInt32, Int.emod_eq_of_lt h1 h2]
  ring

/-- Negating the dividend negates C-style remainder. -/
theorem neg_tmod (a b : ℤ) : Int.tmod (-a) b = -Int.tmod a b := by
  rw [Int.tmod_def, Int.tmod_def, Int.neg_tdiv]
  ring

/-- The remainder of C-style (truncating) division is smaller than a positive
divisor in absolute value. -/
theorem abs_tmod_lt (a : ℤ) {b : ℤ} (hb : 0 < b) : |Int.tmod a b| < b := by
  rcases le_or_lt 0 a with h | h
  · rw [abs_of_nonneg (Int.tmod_nonneg b h)]
    exact Int.tmod_lt_of_pos a hb
  · have hneg : Int.tmod a b = -Int.tmod (-a) b := by rw [neg_tmod, neg_neg]
    have h1 : 0 ≤ Int.tmod (-a) b := Int.tmod_nonneg b (by linarith)
    have h2 : Int.tmod (-a) b < b := Int.tmod_lt_of_pos (-a) hb
    rw [hneg, abs_neg, abs_of_nonneg h1]
    exact h2

/-- C-style division by a positive divisor leaves a remainder smaller than
the divisor in absolute value. -/
theorem abs_sub_mul_tdiv_lt (a : ℤ) {b : ℤ} (hb : 0 < b) :
    |a - b * Int.tdiv a b| < b := by
  have := abs_tmod_lt a hb
  rwa [Int.tmod_def] at this

/-- The implementation of `stepperAxisMMToSteps` is the spec-worded
conversion composed with the `int32_t` narrowing. -/
theorem stepperAxisMMToSteps_eq_toInt32_spec (s : MachineState) (mm : ℚ)
    (axis : Fin STEPPER_COUNT) :
    stepperAxisMMToSteps s mm axis =
      toInt32 (mmToStepsSpec (stepperAxisStepsPerMM s axis) mm) := rfl

/-! Claim theorems. -/

/-- C3: after a hard reset, if bit 7 (the endstops-present bit) of the
persisted endstop-inversion bitmask is clear, `invert_endstop` is true for
every axis regardless of the per-axis bits; if bit 7 is set,
`invert_endstop` of axis `i` equals bit `i` of the bitmask. -/
theorem invert_endstop_rule (ee : Eeprom) (s : MachineState)
    (i : Fin STEPPER_COUNT) :
    ((stepperAxisInit true ee s).stepperAxis i).invert_endstop =
      (if ee.endstop_inversion.testBit 7 then ee.endstop_inversion.testBit i
       else true) := by
  simp only [stepperAxisInit, hardResetAxis]
  cases h : ee.endstop_inversion.testBit 7 <;> simp [h]

/-- C5: a soft reset (`hard_reset = false`) leaves `steps_per_mm`,
`max_feedrate`, both travel limits and `dda_position` of every axis
unchanged, while it clears `axis_homing` and resets every field of the
per-axis DDA motion descriptor to its initial value. -/
theorem soft_reset_frame (ee : Eeprom) (s : MachineState)
    (i : Fin STEPPER_COUNT) :
    ((stepperAxisInit false ee s).stepperAxis i).steps_per_mm =
        (s.stepperAxis i).steps_per_mm ∧
    ((stepperAxisInit false ee s).stepperAxis i).max_feedrate =
        (s.stepperAxis i).max_feedrate ∧
    ((stepperAxisInit false ee s).stepperAxis i).min_axis_steps_limit =
        (s.stepperAxis i).min_axis_steps_limit ∧
    ((stepperAxisInit false ee s).stepperAxis i).max_axis_steps_limit =
        (s.stepperAxis i).max_axis_steps_limit ∧
    (stepperAxisInit false ee s).dda_position i = s.dda_position i ∧
    (stepperAxisInit false ee s).axis_homing i = false ∧
    ((stepperAxisInit false ee s).stepperAxis i).dda.counter = 0 ∧
    ((stepperAxisInit false ee s).stepperAxis i).dda.direction = 1 ∧
    ((stepperAxisInit false ee s).stepperAxis i).dda.stepperDir = false ∧
    ((stepperAxisInit false ee s).stepperAxis i).dda.master = false ∧
    ((stepperAxisInit false ee s).stepperAxis i).dda.master_steps = 0 ∧
    ((stepperAxisInit false ee s).stepperAxis i).dda.steps_completed = 0 ∧
    ((stepperAxisInit false ee s).stepperAxis i).dda.steps = 0 := by
  simp [stepperAxisInit, resetDDA]

/-- C7: during a hard reset, for every axis, if the integer truncation of
`steps_per_mm * max_feedrate` is zero then `min_interval` is set to the fixed
default 500 (no division), otherwise to 1000000 divided by that truncated
value. -/
theorem min_interval_rule (ee : Eeprom) (s : MachineState)
    (i : Fin STEPPER_COUNT) :
    ((stepperAxisInit true ee s).stepperAxis i).min_interval =
      (if truncQ (eepromStepsPerMM ee i * eepromMaxFeedrate ee i) = 0 then 500
       else Int.tdiv 1000000
              (truncQ (eepromStepsPerMM ee i * eepromMaxFeedrate ee i))) := by
  simp only [stepperAxisInit, hardResetAxis]
  by_cases h : truncQ (eepromStepsPerMM ee i * eepromMaxFeedrate ee i) = 0 <;>
    simp [h]

/-- C8: immediately after initialization, with either value of `hard_reset`,
every extruder step counter is zero. -/
theorem e_steps_zero_after_init (hard_reset : Bool) (ee : Eeprom)
    (s : MachineState) (i : Fin EXTRUDERS) :
    (stepperAxisInit hard_reset ee s).e_steps i = 0 := rfl

/-- C9: initialization is idempotent: for either value of `hard_reset`,
running it twice (against the same persisted calibration) yields the same
state as running it once; this covers the axis configuration records,
`dda_position`, `axis_homing`, `e_steps` and the enablement bitmasks, which
together form the whole modelled state. -/
theorem init_idempotent (hard_reset : Bool) (ee : Eeprom) (s : MachineState) :
    stepperAxisInit hard_reset ee (stepperAxisInit hard_reset ee s) =
      stepperAxisInit hard_reset ee s := by
  cases hard_reset <;>
    · apply MachineState.ext <;> (try funext i) <;>
        simp [stepperAxisInit, hardResetAxis]

/-- C10: a soft reset also leaves unchanged, for every axis, `hasHomed`,
`hasDefinePosition`, `invert_axis`, `invert_endstop` and `min_interval`, and
leaves the `axesEnabled` and `axesHardwareEnabled` bitmasks unchanged. -/
theorem soft_reset_preserves_rest (ee : Eeprom) (s : MachineState)
    (i : Fin STEPPER_COUNT) :
    ((stepperAxisInit false ee s).stepperAxis i).hasHomed =
        (s.stepperAxis i).hasHomed ∧
    ((stepperAxisInit false ee s).stepperAxis i).hasDefinePosition =
        (s.stepperAxis i).hasDefinePosition ∧
    ((stepperAxisInit false ee s).stepperAxis i).invert_axis =
        (s.stepperAxis i).invert_axis ∧
    ((stepperAxisInit false ee s).stepperAxis i).invert_endstop =
        (s.stepperAxis i).invert_endstop ∧
    ((stepperAxisInit false ee s).stepperAxis i).min_interval =
        (s.stepperAxis i).min_interval ∧
    (stepperAxisInit false ee s).axesEnabled = s.axesEnabled ∧
    (stepperAxisInit false ee s).axesHardwareEnabled =
        s.axesHardwareEnabled := by
  simp [stepperAxisInit]

theorem axisLengthSteps_nonneg (ee : Eeprom) (i : Fin STEPPER_COUNT) :
    0 ≤ axisLengthSteps ee i := by
  apply truncQ_nonneg
  unfold eepromStepsPerMM
  positivity

/-- After a hard reset, axis `i` of the configuration array is the record
computed by `hardResetAxis`, with a fresh DDA descriptor. -/
theorem init_true_axis (ee : Eeprom) (s : MachineState)
    (i : Fin STEPPER_COUNT) :
    (stepperAxisInit true ee s).stepperAxis i =
      { hardResetAxis ee i (s.stepperAxis i) with dda := resetDDA i } := rfl

theorem hardResetAxis_max_X (ee : Eeprom) (old : StepperAxisRec) :
    (hardResetAxis ee X_AXIS old).max_axis_steps_limit =
      Int.tdiv (axisLengthSteps ee X_AXIS) 2 := by
  simp [hardResetAxis]

theorem hardResetAxis_min_X (ee : Eeprom) (old : StepperAxisRec) :
    (hardResetAxis ee X_AXIS old).min_axis_steps_limit =
      -Int.tdiv (axisLengthSteps ee X_AXIS) 2 := by
  simp [hardResetAxis]

theorem hardResetAxis_max_Y (ee : Eeprom) (old : StepperAxisRec) :
    (hardResetAxis ee Y_AXIS old).max_axis_steps_limit =
      Int.tdiv (axisLengthSteps ee Y_AXIS) 2 := by
  simp [hardResetAxis]

theorem hardResetAxis_min_Y (ee : Eeprom) (old : StepperAxisRec) :
    (hardResetAxis ee Y_AXIS old).min_axis_steps_limit =
      -Int.tdiv (axisLengthSteps ee Y_AXIS) 2 := by
  simp [hardResetAxis]

theorem hardResetAxis_max_Z (ee : Eeprom) (old : StepperAxisRec) :
    (hardResetAxis ee Z_AXIS old).max_axis_steps_limit =
      axisLengthSteps ee Z_AXIS -
        toInt32 (ee.axis_home_positions_steps Z_AXIS : ℤ) := by
  simp only [hardResetAxis]
  rw [if_neg (by decide)]
  simp

theorem hardResetAxis_min_Z (ee : Eeprom) (old : StepperAxisRec) :
    (hardResetAxis ee Z_AXIS old).min_axis_steps_limit = 0 := by
  simp only [hardResetAxis]
  rw [if_neg (by decide)]
  simp

theorem hardResetAxis_max_A (ee : Eeprom) (old : StepperAxisRec) :
    (hardResetAxis ee A_AXIS old).max_axis_steps_limit =
      axisLengthSteps ee A_AXIS := by
  simp only [hardResetAxis]
  rw [if_neg (by decide), if_neg (by decide)]

theorem hardResetAxis_min_A (ee : Eeprom) (old : StepperAxisRec) :
    (hardResetAxis ee A_AXIS old).min_axis_steps_limit =
      -axisLengthSteps ee A_AXIS := by
  simp only [hardResetAxis]
  rw [if_neg (by decide), if_neg (by decide)]

theorem hardResetAxis_max_B (ee : Eeprom) (old : StepperAxisRec) :
    (hardResetAxis ee B_AXIS old).max_axis_steps_limit =
      axisLengthSteps ee B_AXIS := by
  simp only [hardResetAxis]
  rw [if_neg (by decide), if_neg (by decide)]

theorem hardResetAxis_min_B (ee : Eeprom) (old : StepperAxisRec) :
    (hardResetAxis ee B_AXIS old).min_axis_steps_limit =
      -axisLengthSteps ee B_AXIS := by
  simp only [hardResetAxis]
  rw [if_neg (by decide), if_neg (by decide)]

/-- C6: after a hard reset, `min_axis_steps_limit ≤ 0 ≤ max_axis_steps_limit`
holds for the X, Y, A and B axes, and `min_axis_steps_limit = 0` holds for
the Z axis. -/
theorem limits_sign_invariant (ee : Eeprom) (s : MachineState) :
    (((stepperAxisInit true ee s).stepperAxis X_AXIS).min_axis_steps_limit ≤ 0 ∧
      0 ≤ ((stepperAxisInit true ee s).stepperAxis X_AXIS).max_axis_steps_limit) ∧
    (((stepperAxisInit true ee s).stepperAxis Y_AXIS).min_axis_steps_limit ≤ 0 ∧
      0 ≤ ((stepperAxisInit true ee s).stepperAxis Y_AXIS).max_axis_steps_limit) ∧
    (((stepperAxisInit true ee s).stepperAxis A_AXIS).min_axis_steps_limit ≤ 0 ∧
      0 ≤ ((stepperAxisInit true ee s).stepperAxis A_AXIS).max_axis_steps_limit) ∧
    (((stepperAxisInit true ee s).stepperAxis B_AXIS).min_axis_steps_limit ≤ 0 ∧
      0 ≤ ((stepperAxisInit true ee s).stepperAxis B_AXIS).max_axis_steps_limit) ∧
    ((stepperAxisInit true ee s).stepperAxis Z_AXIS).min_axis_steps_limit = 0 := by
  have hX := axisLengthSteps_nonneg ee X_AXIS
  have hY := axisLengthSteps_nonneg ee Y_AXIS
  have hA := axisLengthSteps_nonneg ee A_AXIS
  have hB := axisLengthSteps_nonneg ee B_AXIS
  have hdX : 0 ≤ Int.tdiv (axisLengthSteps ee X_AXIS) 2 :=
    Int.tdiv_nonneg hX (by norm_num)
  have hdY : 0 ≤ Int.tdiv (axisLengthSteps ee Y_AXIS) 2 :=
    Int.tdiv_nonneg hY (by norm_num)
  simp only [init_true_axis, hardResetAxis_max_X, hardResetAxis_min_X,
    hardResetAxis_max_Y, hardResetAxis_min_Y, hardResetAxis_min_Z,
    hardResetAxis_max_A, hardResetAxis_min_A, hardResetAxis_max_B,
    hardResetAxis_min_B]
  refine ⟨⟨by linarith, by linarith⟩, ⟨by linarith, by linarith⟩,
          ⟨by linarith, by linarith⟩, ⟨by linarith, by linarith⟩, trivial⟩

/-- C4 counterexample: with persisted steps-per-mm 88.0025 (raw 88002500)
and axis length 200 mm, the product is 17600.5; the code truncates it to
17600 steps while the claimed round-to-nearest gives 17601, so on the A axis
(whose max limit is the length itself) the claimed value differs from the
computed one. -/
theorem axis_limits_round_cex :
    ((stepperAxisInit true (eeS 88002500 200) zeroState).stepperAxis
        A_AXIS).max_axis_steps_limit ≠
      axisLengthStepsRounded (eeS 88002500 200) A_AXIS := by
  have hlen : axisLengthSteps (eeS 88002500 200) A_AXIS = 17600 := by
    simp only [axisLengthSteps, eepromStepsPerMM, eeS, truncQ]
    norm_num
  have h1 : ((stepperAxisInit true (eeS 88002500 200) zeroState).stepperAxis
      A_AXIS).max_axis_steps_limit = 17600 := by
    simp only [init_true_axis, hardResetAxis_max_A, hlen]
  have h2 : axisLengthStepsRounded (eeS 88002500 200) A_AXIS = 17601 := by
    simp only [axisLengthStepsRounded, eepromStepsPerMM, eeS]
    rw [round_eq]
    norm_num
  rw [h1, h2]
  norm_num

/-- C4 (amended): after a hard reset, with
`length = trunc(persisted_axis_length_mm * steps_per_mm)` (truncation toward
zero, as performed by the C cast — not round-to-nearest): for X and Y the max
limit is `length / 2` (truncating integer division) and the min limit its
negation; for A and B the max limit is `length` and the min limit `-length`;
for Z (default floor-homing build) the min limit is 0 and the max limit
`length - home_position_steps`; and in particular for X with
steps-per-mm 88.0 and axis length 200 mm the limits are 8800 and -8800. -/
theorem axis_limits_after_hard_reset (ee : Eeprom) (s : MachineState) :
    (((stepperAxisInit true ee s).stepperAxis X_AXIS).max_axis_steps_limit =
        Int.tdiv (axisLengthSteps ee X_AXIS) 2 ∧
      ((stepperAxisInit true ee s).stepperAxis X_AXIS).min_axis_steps_limit =
        -Int.tdiv (axisLengthSteps ee X_AXIS) 2) ∧
    (((stepperAxisInit true ee s).stepperAxis Y_AXIS).max_axis_steps_limit =
        Int.tdiv (axisLengthSteps ee Y_AXIS) 2 ∧
      ((stepperAxisInit true ee s).stepperAxis Y_AXIS).min_axis_steps_limit =
        -Int.tdiv (axisLengthSteps ee Y_AXIS) 2) ∧
    (((stepperAxisInit true ee s).stepperAxis Z_AXIS).max_axis_steps_limit =
        axisLengthSteps ee Z_AXIS -
          toInt32 (ee.axis_home_positions_steps Z_AXIS : ℤ) ∧
      ((stepperAxisInit true ee s).stepperAxis Z_AXIS).min_axis_steps_limit =
        0) ∧
    (((stepperAxisInit true ee s).stepperAxis A_AXIS).max_axis_steps_limit =
        axisLengthSteps ee A_AXIS ∧
      ((stepperAxisInit true ee s).stepperAxis A_AXIS).min_axis_steps_limit =
        -axisLengthSteps ee A_AXIS) ∧
    (((stepperAxisInit true ee s).stepperAxis B_AXIS).max_axis_steps_limit =
        axisLengthSteps ee B_AXIS ∧
      ((stepperAxisInit true ee s).stepperAxis B_AXIS).min_axis_steps_limit =
        -axisLengthSteps ee B_AXIS) ∧
    (((stepperAxisInit true (eeS 88000000 200) zeroState).stepperAxis
          X_AXIS).max_axis_steps_limit = 8800 ∧
      ((stepperAxisInit true (eeS 88000000 200) zeroState).stepperAxis
          X_AXIS).min_axis_steps_limit = -8800) := by
  have hlen : axisLengthSteps (eeS 88000000 200) X_AXIS = 17600 := by
    simp only [axisLengthSteps, eepromStepsPerMM, eeS, truncQ]
    norm_num
  refine ⟨?_, ?_, ?_, ?_, ?_, ?_⟩ <;>
    simp only [init_true_axis, hardResetAxis_max_X, hardResetAxis_min_X,
      hardResetAxis_max_Y, hardResetAxis_min_Y, hardResetAxis_max_Z,
      hardResetAxis_min_Z, hardResetAxis_max_A, hardResetAxis_min_A,
      hardResetAxis_max_B, hardResetAxis_min_B, hlen, and_self]
  constructor <;> decide

/-- After a hard reset, the steps-per-mm accessor returns the persisted
scaled value divided by 10^6, for every axis. -/
theorem init_true_steps_per_mm (ee : Eeprom) (s : MachineState)
    (i : Fin STEPPER_COUNT) :
    stepperAxisStepsPerMM (stepperAxisInit true ee s) i =
      eepromStepsPerMM ee i := by
  simp [stepperAxisStepsPerMM, init_true_axis, hardResetAxis]

/-- C1: `stepperAxisMMToSteps(mm, axis)` computes its result by scaling `mm`
by 1000 in real arithmetic, truncating that product to an integer,
multiplying by the integer-truncated steps-per-mm of the axis and
integer-dividing (truncating) by 1000, whenever that value fits `int32_t`;
in particular with steps-per-mm 100.0, `stepperAxisMMToSteps(1.2345, axis)`
is 123. -/
theorem mmToSteps_is_spec_truncation (s : MachineState)
    (axis : Fin STEPPER_COUNT) (mm : ℚ)
    (hlo : -(2 ^ 31) ≤ mmToStepsSpec (stepperAxisStepsPerMM s axis) mm)
    (hhi : mmToStepsSpec (stepperAxisStepsPerMM s axis) mm < 2 ^ 31) :
    stepperAxisMMToSteps s mm axis =
      mmToStepsSpec (stepperAxisStepsPerMM s axis) mm ∧
    (stepperAxisStepsPerMM s axis = 100 → mm = 12345 / 10000 →
      stepperAxisMMToSteps s mm axis = 123) := by
  have h1 : stepperAxisMMToSteps s mm axis =
      mmToStepsSpec (stepperAxisStepsPerMM s axis) mm := by
    rw [stepperAxisMMToSteps_eq_toInt32_spec, toInt32_eq_self hlo hhi]
  refine ⟨h1, fun hspm hmm => ?_⟩
  rw [h1, hspm, hmm]
  have e1 : truncQ ((12345 : ℚ) / 10000 * 1000) = 1234 := by
    rw [truncQ_of_nonneg (by norm_num)]
    norm_num
  have e2 : truncQ (100 : ℚ) = 100 := by
    rw [truncQ_of_nonneg (by norm_num)]
    norm_num
  rw [mmToStepsSpec, e1, e2]
  decide

/-- Witness for C1 at a concrete input: a hard reset loading raw
steps-per-mm 100000000 (10^6 scaling, so 100 steps/mm), then converting
1.2345 mm, yields 123 steps. -/
theorem mmToSteps_is_spec_truncation_witness :
    stepperAxisMMToSteps (stepperAxisInit true (eeS 100000000 200) zeroState)
      (12345 / 10000) X_AXIS = 123 := by
  have hspm : stepperAxisStepsPerMM
      (stepperAxisInit true (eeS 100000000 200) zeroState) X_AXIS = 100 := by
    rw [init_true_steps_per_mm]
    simp [eepromStepsPerMM, eeS]
    norm_num
  have hval : mmToStepsSpec (stepperAxisStepsPerMM
      (stepperAxisInit true (eeS 100000000 200) zeroState) X_AXIS)
      (12345 / 10000) = 123 := by
    rw [hspm, mmToStepsSpec, truncQ_of_nonneg (by norm_num),
      truncQ_of_nonneg (by norm_num)]
    norm_num
    decide
  have hlo : -(2 ^ 31) ≤ mmToStepsSpec (stepperAxisStepsPerMM
      (stepperAxisInit true (eeS 100000000 200) zeroState) X_AXIS)
      (12345 / 10000) := by
    rw [hval]; norm_num
  have hhi : mmToStepsSpec (stepperAxisStepsPerMM
      (stepperAxisInit true (eeS 100000000 200) zeroState) X_AXIS)
      (12345 / 10000) < 2 ^ 31 := by
    rw [hval]; norm_num
  exact (mmToSteps_is_spec_truncation
    (stepperAxisInit true (eeS 100000000 200) zeroState) X_AXIS
    (12345 / 10000) hlo hhi).2 hspm rfl

/-- C2 counterexample: a hard reset with persisted steps-per-mm 100.5 (raw
100500000) and length 200 mm gives the X axis steps_per_mm 100.5 > 0 and
travel limits -10050..10050 steps (-100..100 mm); x = 10 mm lies in that
range, yet the roundtrip stepsToMM(mmToSteps(10)) = 1000/100.5 mm misses 10
by 10/201 mm, more than one step 1/steps_per_mm = 2/201 mm: the claimed bound
fails because the conversion truncates steps_per_mm to the integer 100. -/
theorem roundtrip_error_cex :
    0 < stepperAxisStepsPerMM
        (stepperAxisInit true (eeS 100500000 200) zeroState) X_AXIS ∧
    stepperAxisStepsToMM (stepperAxisInit true (eeS 100500000 200) zeroState)
        ((stepperAxisInit true (eeS 100500000 200) zeroState).stepperAxis
            X_AXIS).min_axis_steps_limit X_AXIS ≤ 10 ∧
    (10 : ℚ) ≤ stepperAxisStepsToMM
        (stepperAxisInit true (eeS 100500000 200) zeroState)
        ((stepperAxisInit true (eeS 100500000 200) zeroState).stepperAxis
            X_AXIS).max_axis_steps_limit X_AXIS ∧
    1 / stepperAxisStepsPerMM
        (stepperAxisInit true (eeS 100500000 200) zeroState) X_AXIS <
      |stepperAxisStepsToMM (stepperAxisInit true (eeS 100500000 200) zeroState)
          (stepperAxisMMToSteps
            (stepperAxisInit true (eeS 100500000 200) zeroState) 10 X_AXIS)
          X_AXIS - 10| := by
  have hspm : stepperAxisStepsPerMM
      (stepperAxisInit true (eeS 100500000 200) zeroState) X_AXIS = 201 / 2 := by
    rw [init_true_steps_per_mm]
    simp [eepromStepsPerMM, eeS]
    norm_num
  have hspm' : ((stepperAxisInit true (eeS 100500000 200) zeroState).stepperAxis
      X_AXIS).steps_per_mm = 201 / 2 := hspm
  have hlen : axisLengthSteps (eeS 100500000 200) X_AXIS = 20100 := by
    rw [axisLengthSteps, eepromStepsPerMM]
    simp [eeS]
    rw [truncQ_of_nonneg (by norm_num)]
    norm_num
  have hmax : ((stepperAxisInit true (eeS 100500000 200) zeroState).stepperAxis
      X_AXIS).max_axis_steps_limit = 10050 := by
    simp only [init_true_axis, hardResetAxis_max_X, hlen]
    decide
  have hmin : ((stepperAxisInit true (eeS 100500000 200) zeroState).stepperAxis
      X_AXIS).min_axis_steps_limit = -10050 := by
    simp only [init_true_axis, hardResetAxis_min_X, hlen]
    decide
  have hconv : stepperAxisMMToSteps
      (stepperAxisInit true (eeS 100500000 200) zeroState) 10 X_AXIS = 1000 := by
    rw [stepperAxisMMToSteps_eq_toInt32_spec, hspm, mmToStepsSpec,
      truncQ_of_nonneg (by norm_num), truncQ_of_nonneg (by norm_num)]
    have e1 : (⌊(10 : ℚ) * 1000⌋ : ℤ) = 10000 := by norm_num
    have e2 : (⌊(201 : ℚ) / 2⌋ : ℤ) = 100 := by norm_num
    rw [e1, e2]
    have e3 : Int.tdiv (10000 * 100) 1000 = 1000 := by decide
    rw [e3, toInt32_eq_self (by norm_num) (by norm_num)]
  refine ⟨by rw [hspm]; norm_num, ?_, ?_, ?_⟩
  · rw [stepperAxisStepsToMM, hspm', hmin]
    norm_num
  · rw [stepperAxisStepsToMM, hspm', hmax]
    norm_num
  · rw [stepperAxisStepsToMM, hspm, hspm', hconv]
    have : ((1000 : ℤ) : ℚ) / (201 / 2) - 10 = -(10 / 201) := by norm_num
    rw [this, abs_neg, abs_of_nonneg (by norm_num)]
    norm_num

/-- C2 (amended): when the axis's steps_per_mm is a positive INTEGER n (so
that the integer truncation inside `stepperAxisMMToSteps` is exact) and the
converted value fits `int32_t`, the roundtrip
`stepperAxisStepsToMM(stepperAxisMMToSteps(x, axis), axis)` differs from `x`
by at most one step's worth of distance plus the fixed-point quantum of the
conversion: 1/steps_per_mm + 1/1000 mm.  (For non-integer steps_per_mm the
truncation to an integer makes the error grow in proportion to |x|, as the
counterexample shows, so no bound of this shape exists.) -/
theorem roundtrip_error_bound (s : MachineState) (axis : Fin STEPPER_COUNT)
    (x : ℚ) (n : ℤ) (hn : 0 < n)
    (hspm : (s.stepperAxis axis).steps_per_mm = (n : ℚ))
    (hlo : -(2 ^ 31) ≤ mmToStepsSpec (n : ℚ) x)
    (hhi : mmToStepsSpec (n : ℚ) x < 2 ^ 31) :
    |stepperAxisStepsToMM s (stepperAxisMMToSteps s x axis) axis - x| ≤
      1 / 1000 + 1 / (n : ℚ) := by
  have hnQ : (0 : ℚ) < (n : ℚ) := by exact_mod_cast hn
  have hsteps : stepperAxisMMToSteps s x axis =
      Int.tdiv (truncQ (x * 1000) * n) 1000 := by
    rw [stepperAxisMMToSteps_eq_toInt32_spec]
    have : mmToStepsSpec (stepperAxisStepsPerMM s axis) x =
        mmToStepsSpec (n : ℚ) x := by
      rw [stepperAxisStepsPerMM, hspm]
    rw [this, toInt32_eq_self hlo hhi, mmToStepsSpec, truncQ_intCast]
  set m : ℤ := truncQ (x * 1000) with hm
  set q : ℤ := Int.tdiv (m * n) 1000 with hq
  have hconv : stepperAxisStepsToMM s (stepperAxisMMToSteps s x axis) axis =
      (q : ℚ) / (n : ℚ) := by
    rw [stepperAxisStepsToMM, hspm, hsteps]
  rw [hconv]
  have hrem : |(m * n : ℤ) - 1000 * q| < 1000 := by
    have := abs_sub_mul_tdiv_lt (m * n) (show (0:ℤ) < 1000 by norm_num)
    simpa [hq] using this
  have hremQ : |((m : ℚ)) * (n : ℚ) - 1000 * (q : ℚ)| ≤ 1000 := by
    exact_mod_cast le_of_lt hrem
  have htr : |x * 1000 - (m : ℚ)| ≤ 1 := le_of_lt (abs_sub_truncQ_lt_one (x * 1000))
  have key : (q : ℚ) / (n : ℚ) - x =
      ((1000 * (q : ℚ) - (m : ℚ) * (n : ℚ)) - (n : ℚ) * (x * 1000 - (m : ℚ))) /
        (1000 * (n : ℚ)) := by
    field_simp
    ring
  have hpos : (0 : ℚ) < 1000 * (n : ℚ) := by positivity
  rw [key, abs_div, abs_of_pos hpos]
  rw [div_le_iff₀ hpos]
  have hb1 : |1000 * (q : ℚ) - (m : ℚ) * (n : ℚ)| ≤ 1000 := by
    rw [abs_sub_comm]
    exact hremQ
  have hb2 : |(n : ℚ) * (x * 1000 - (m : ℚ))| ≤ (n : ℚ) := by
    rw [abs_mul, abs_of_pos hnQ]
    calc (n:ℚ) * |x * 1000 - (m : ℚ)| ≤ (n:ℚ) * 1 := by
          exact mul_le_mul_of_nonneg_left htr (le_of_lt hnQ)
      _ = (n : ℚ) := mul_one _
  have habs : |(1000 * (q : ℚ) - (m : ℚ) * (n : ℚ)) - (n : ℚ) * (x * 1000 - (m : ℚ))| ≤
      1000 + (n : ℚ) := by
    calc |(1000 * (q : ℚ) - (m : ℚ) * (n : ℚ)) - (n : ℚ) * (x * 1000 - (m : ℚ))|
        ≤ |1000 * (q : ℚ) - (m : ℚ) * (n : ℚ)| + |(n : ℚ) * (x * 1000 - (m : ℚ))| :=
          abs_sub _ _
      _ ≤ 1000 + (n : ℚ) := add_le_add hb1 hb2
  calc |(1000 * (q : ℚ) - (m : ℚ) * (n : ℚ)) - (n : ℚ) * (x * 1000 - (m : ℚ))| ≤
        1000 + (n : ℚ) := habs
    _ = (1 / 1000 + 1 / (n : ℚ)) * (1000 * (n : ℚ)) := by
        field_simp
        ring

/-- Witness for the amended C2 bound: steps-per-mm 100, x = 1.2345 mm; the
roundtrip gives 1.23 mm, within 1/100 + 1/1000 of x. -/
theorem roundtrip_error_bound_witness :
    |stepperAxisStepsToMM (stepperAxisInit true (eeS 100000000 200) zeroState)
        (stepperAxisMMToSteps
          (stepperAxisInit true (eeS 100000000 200) zeroState)
          (12345 / 10000) X_AXIS) X_AXIS - 12345 / 10000| ≤
      1 / 1000 + 1 / ((100 : ℤ) : ℚ) := by
  have hspm : ((stepperAxisInit true (eeS 100000000 200) zeroState).stepperAxis
      X_AXIS).steps_per_mm = ((100 : ℤ) : ℚ) := by
    have h := init_true_steps_per_mm (eeS 100000000 200) zeroState X_AXIS
    rw [stepperAxisStepsPerMM] at h
    rw [h, eepromStepsPerMM]
    simp [eeS]
    norm_num
  have hval : mmToStepsSpec ((100 : ℤ) : ℚ) (12345 / 10000) = 123 := by
    rw [mmToStepsSpec, truncQ_of_nonneg (by norm_num),
      truncQ_of_nonneg (by norm_num)]
    norm_num
    decide
  exact roundtrip_error_bound
    (stepperAxisInit true (eeS 100000000 200) zeroState) X_AXIS
    (12345 / 10000) 100 (by norm_num) hspm
    (by rw [hval]; norm_num) (by rw [hval]; norm_num)

end StepperAxisModel
